import Mathlib

/-!
Verification of the MedAi streaming chat session client
(frontend/src/composables/useChat.ts, consumed by ChatView.vue).

The embedding models the state owned by the useChat composable — the
message list and the isLoading flag — together with the sendMessage
and clearMessages operations.  The network transport (fetch result,
response body chunks as produced by the incremental text decoder) is
modelled explicitly as data, so that a whole send is a pure function
of the initial state, the input text, the generated message ids and
the transport outcome.  JSON.parse of the host environment is embedded
as an executable recursive-descent parser over the JSON grammar.
-/

namespace MedAi

/-- Message roles, matching the string literals used by the source:
the role field of a Message is either the string user or assistant,
and the request body additionally uses the system role for the fixed
preamble. -/
inductive Role where
  | user
  | assistant
  | system
  deriving DecidableEq, Repr

/-- The Message record of the source (types/chat): an opaque unique id
(modelled as a Nat; the source generates it from Date.now and
Math.random), a role, mutable content and a creation timestamp. -/
structure Message where
  id : Nat
  role : Role
  content : String
  timestamp : Nat
  deriving DecidableEq, Repr

/-- The reactive state owned by useChat: the ordered message sequence
and the isLoading flag (the awaiting-completion flag of the spec). -/
structure ChatState where
  messages : List Message
  isLoading : Bool
  deriving DecidableEq, Repr

/-- A role/content pair as serialised into the request body by
sendMessage (each message is reduced to a role and content field). -/
structure WireMessage where
  role : Role
  content : String
  deriving DecidableEq, Repr

/-! ## JavaScript string primitives

The decoder uses four string operations of the host language: split
on a newline, startsWith, slice and trim.  Lean's own String API
implements several of these by well-founded recursion, which the
kernel cannot evaluate, and their semantics differ in detail from
the JavaScript ones, so the four operations are embedded directly
as structural recursions over the character list of a string. -/

/-- The characters removed by the JavaScript String.prototype.trim:
whitespace and line terminators (space, tab, line feed, vertical
tab, form feed, carriage return, no-break space, BOM, line and
paragraph separators; the rarer Unicode space separators are not
modelled, no payload of this development contains them). -/
def jsWhitespace (c : Char) : Bool :=
  c = ' ' || c = '\t' || c = '\n' || c = '\x0b' || c = '\x0c' || c = '\r' ||
    c = '\u00A0' || c = '\uFEFF' || c = '\u2028' || c = '\u2029'

/-- Drop leading JavaScript whitespace from a character list. -/
def dropLeadingWs : List Char → List Char
  | [] => []
  | c :: cs => if jsWhitespace c then dropLeadingWs cs else c :: cs

/-- JavaScript String.prototype.trim. -/
def jsTrim (s : String) : String :=
  String.mk ((dropLeadingWs (dropLeadingWs s.data).reverse).reverse)

/-- Drop the first n characters of a list, the slice(n) of the
source (the sliced lines are ASCII up to the cut, so code units and
characters agree). -/
def dropChars : Nat → List Char → List Char
  | 0, cs => cs
  | _, [] => []
  | n + 1, _ :: cs => dropChars n cs

/-- Whether the first list is a leading segment of the second. -/
def leadsWith : List Char → List Char → Bool
  | [], _ => true
  | _ :: _, [] => false
  | p :: ps, c :: cs => p = c && leadsWith ps cs

/-- JavaScript String.prototype.startsWith. -/
def jsStartsWith (s pat : String) : Bool :=
  leadsWith pat.data s.data

/-- Split a character list at each newline; the accumulator holds the
characters of the current segment in reverse. -/
def splitNlAux : List Char → List Char → List String
  | [], acc => [String.mk acc.reverse]
  | c :: cs, acc =>
    if c = '\n' then String.mk acc.reverse :: splitNlAux cs []
    else splitNlAux cs (c :: acc)

/-- JavaScript String.prototype.split with separator a newline: the
segments between newlines, one more segment than separators (the
empty string splits to one empty segment). -/
def jsSplitNl (s : String) : List String :=
  splitNlAux s.data []

/-! ## JSON values and JSON.parse

The stream decoder calls the host JSON.parse on each data payload.
We embed a JSON value datatype and an executable parser for the JSON
grammar (RFC 8259): literals null/true/false, numbers, strings with
escapes, arrays and objects, with insignificant whitespace between
tokens and the whole input consumed.  Numbers are kept as their
lexeme; no claim of this development exercises numeric values. -/

inductive Json where
  | jnull
  | jbool (b : Bool)
  | jnum (lexeme : String)
  | jstr (s : String)
  | jarr (elements : List Json)
  | jobj (fields : List (String × Json))
  deriving Repr

/-- JSON insignificant whitespace: space, tab, line feed, carriage
return. -/
def isJsonWs (c : Char) : Bool :=
  c = ' ' || c = '\t' || c = '\n' || c = '\r'

/-- Drop leading JSON whitespace. -/
def skipWs : List Char → List Char
  | [] => []
  | c :: cs => if isJsonWs c then skipWs cs else c :: cs

/-- Value of a hexadecimal digit, for string escapes of the form
backslash-u followed by four hex digits. -/
def hexVal (c : Char) : Option Nat :=
  if '0' ≤ c ∧ c ≤ '9' then some (c.toNat - '0'.toNat)
  else if 'a' ≤ c ∧ c ≤ 'f' then some (c.toNat - 'a'.toNat + 10)
  else if 'A' ≤ c ∧ c ≤ 'F' then some (c.toNat - 'A'.toNat + 10)
  else none

/-- The single-character string escapes of JSON. -/
def escSimple (c : Char) : Option Char :=
  if c = '"' then some '"'
  else if c = '\\' then some '\\'
  else if c = '/' then some '/'
  else if c = 'b' then some (Char.ofNat 8)
  else if c = 'f' then some (Char.ofNat 12)
  else if c = 'n' then some '\n'
  else if c = 'r' then some '\r'
  else if c = 't' then some '\t'
  else none

/-- Body of a JSON string after the opening quote: returns the decoded
characters and the input remaining after the closing quote.  Raw
control characters below 0x20 are refused, as JSON.parse refuses
them.  For a backslash-u escape the four hex digits are decoded to a
single code point; surrogate-pair recombination is not modelled (no
payload in this development uses such escapes). -/
def parseStringBody : Nat → List Char → Option (List Char × List Char)
  | 0, _ => none
  | _, [] => none
  | fuel + 1, c :: cs =>
    if c = '"' then some ([], cs)
    else if c = '\\' then
      match cs with
      | [] => none
      | e :: cs2 =>
        match escSimple e with
        | some ch =>
          (parseStringBody fuel cs2).map (fun r => (ch :: r.1, r.2))
        | none =>
          if e = 'u' then
            match cs2 with
            | h1 :: h2 :: h3 :: h4 :: cs3 =>
              match hexVal h1, hexVal h2, hexVal h3, hexVal h4 with
              | some a, some b, some d, some e4 =>
                (parseStringBody fuel cs3).map
                  (fun r => (Char.ofNat (((a * 16 + b) * 16 + d) * 16 + e4) :: r.1, r.2))
              | _, _, _, _ => none
            | _ => none
          else none
    else if c.toNat < 32 then none
    else (parseStringBody fuel cs).map (fun r => (c :: r.1, r.2))

/-- Longest prefix of decimal digits. -/
def takeDigits : List Char → List Char × List Char
  | [] => ([], [])
  | c :: cs =>
    if c.isDigit then
      let r := takeDigits cs
      (c :: r.1, r.2)
    else ([], c :: cs)

/-- Fraction part of a JSON number: a dot followed by at least one
digit, or nothing.  Returns the lexeme characters consumed. -/
def parseFrac (cs : List Char) : Option (List Char × List Char) :=
  match cs with
  | '.' :: cs2 =>
    match takeDigits cs2 with
    | ([], _) => none
    | (ds, rest) => some ('.' :: ds, rest)
  | _ => some ([], cs)

/-- Exponent part of a JSON number: e or E, an optional sign and at
least one digit, or nothing. -/
def parseExp (cs : List Char) : Option (List Char × List Char) :=
  match cs with
  | c :: cs2 =>
    if c = 'e' ∨ c = 'E' then
      match cs2 with
      | s :: cs3 =>
        if s = '+' ∨ s = '-' then
          match takeDigits cs3 with
          | ([], _) => none
          | (ds, rest) => some (c :: s :: ds, rest)
        else
          match takeDigits cs2 with
          | ([], _) => none
          | (ds, rest) => some (c :: ds, rest)
      | [] => none
    else some ([], cs)
  | [] => some ([], cs)

/-- Integer part of a JSON number: a single zero, or a nonzero digit
followed by digits. -/
def parseIntPart (cs : List Char) : Option (List Char × List Char) :=
  match cs with
  | '0' :: cs2 => some (['0'], cs2)
  | c :: _ =>
    if c.isDigit then
      match takeDigits cs with
      | (ds, rest) => some (ds, rest)
    else none
  | [] => none

/-- A JSON number starting at the head of the input: optional minus
sign, integer part, optional fraction, optional exponent.  Returns
the lexeme. -/
def parseNumber (cs : List Char) : Option (List Char × List Char) :=
  match cs with
  | '-' :: cs2 =>
    (parseIntPart cs2).bind (fun ip =>
      (parseFrac ip.2).bind (fun fp =>
        (parseExp fp.2).map (fun ep =>
          ('-' :: ip.1 ++ fp.1 ++ ep.1, ep.2))))
  | _ =>
    (parseIntPart cs).bind (fun ip =>
      (parseFrac ip.2).bind (fun fp =>
        (parseExp fp.2).map (fun ep =>
          (ip.1 ++ fp.1 ++ ep.1, ep.2))))

mutual

/-- One JSON value, after skipping leading whitespace.  Fuel bounds
the recursion; parseJson supplies more fuel than any input can
consume, so fuel exhaustion never decides a parse. -/
def parseValue : Nat → List Char → Option (Json × List Char)
  | 0, _ => none
  | fuel + 1, cs =>
    match skipWs cs with
    | [] => none
    | c :: rest =>
      if c = 'n' then
        match rest with
        | 'u' :: 'l' :: 'l' :: r => some (Json.jnull, r)
        | _ => none
      else if c = 't' then
        match rest with
        | 'r' :: 'u' :: 'e' :: r => some (Json.jbool true, r)
        | _ => none
      else if c = 'f' then
        match rest with
        | 'a' :: 'l' :: 's' :: 'e' :: r => some (Json.jbool false, r)
        | _ => none
      else if c = '"' then
        (parseStringBody (fuel + 1) rest).map
          (fun r => (Json.jstr (String.mk r.1), r.2))
      else if c = '[' then
        match skipWs rest with
        | ']' :: r => some (Json.jarr [], r)
        | cs2 => (parseElements fuel cs2).map (fun r => (Json.jarr r.1, r.2))
      else if c = '\x7b' then
        match skipWs rest with
        | '\x7d' :: r => some (Json.jobj [], r)
        | cs2 => (parseFields fuel cs2).map (fun r => (Json.jobj r.1, r.2))
      else
        (parseNumber (c :: rest)).map
          (fun r => (Json.jnum (String.mk r.1), r.2))

/-- Elements of a non-empty JSON array, up to and including the
closing bracket. -/
def parseElements : Nat → List Char → Option (List Json × List Char)
  | 0, _ => none
  | fuel + 1, cs =>
    (parseValue fuel cs).bind (fun vr =>
      match skipWs vr.2 with
      | ',' :: r2 => (parseElements fuel r2).map (fun er => (vr.1 :: er.1, er.2))
      | ']' :: r2 => some ([vr.1], r2)
      | _ => none)

/-- Fields of a non-empty JSON object, up to and including the closing
brace. -/
def parseFields : Nat → List Char → Option (List (String × Json) × List Char)
  | 0, _ => none
  | fuel + 1, cs =>
    match skipWs cs with
    | '"' :: r =>
      (parseStringBody (fuel + 1) r).bind (fun kr =>
        match skipWs kr.2 with
        | ':' :: r2 =>
          (parseValue fuel r2).bind (fun vr =>
            match skipWs vr.2 with
            | ',' :: r3 =>
              (parseFields fuel r3).map
                (fun fr => ((String.mk kr.1, vr.1) :: fr.1, fr.2))
            | '\x7d' :: r3 => some ([(String.mk kr.1, vr.1)], r3)
            | _ => none)
        | _ => none)
    | _ => none

end

/-- JSON.parse of the host environment: parse one value with
surrounding whitespace, requiring the whole input to be consumed;
any violation of the grammar yields none (the source catches the
exception JSON.parse would throw). -/
def parseJson (s : String) : Option Json :=
  match parseValue (2 * s.length + 2) s.data with
  | some (v, rest) => if skipWs rest = [] then some v else none
  | none => none

/-! ## JavaScript value semantics used by the decoder

The decoder evaluates parsed.choices?.[0]?.delta?.content, tests the
result for truthiness, and appends it to a string with +=.  We model
the three host operations on JSON values: property access (with the
optional-chaining short circuit as Option), truthiness, and string
coercion. -/

/-- Property access obj[k] on a parsed JSON value.  JSON.parse keeps
the last binding of a duplicated object key, so lookup scans the
reversed field list.  Access on a non-object yields undefined
(none); no payload of this development accesses properties of
primitives. -/
def jsonField (j : Json) (k : String) : Option Json :=
  match j with
  | Json.jobj fields => (fields.reverse.find? (fun kv => kv.1 == k)).map (fun kv => kv.2)
  | _ => none

/-- Index access arr[0] on a parsed JSON value: the first element of
an array, undefined (none) otherwise. -/
def jsonIndex0 (j : Json) : Option Json :=
  match j with
  | Json.jarr (v :: _) => some v
  | _ => none

/-- Whether a number lexeme denotes zero: no nonzero digit occurs in
its significand (sign and exponent cannot make such a value nonzero). -/
def numLexemeIsZero (lexeme : String) : Bool :=
  (lexeme.takeWhile (fun c => c ≠ 'e' ∧ c ≠ 'E')).all
    (fun c => ¬ ('1' ≤ c ∧ c ≤ '9'))

/-- JavaScript truthiness of a parsed JSON value: null, false, zero
numbers and the empty string are falsy; every array and object is
truthy. -/
def jsTruthy (j : Json) : Bool :=
  match j with
  | Json.jnull => false
  | Json.jbool b => b
  | Json.jnum lexeme => ! numLexemeIsZero lexeme
  | Json.jstr s => s ≠ ""
  | Json.jarr _ => true
  | Json.jobj _ => true

mutual

/-- JavaScript string coercion of a parsed JSON value, as applied by
the += append.  Numbers are rendered by their lexeme (JS re-formats
some exotic lexemes; no claim exercises a non-string token) and
objects as the generic object tag. -/
def jsToString : Json → String
  | Json.jnull => "null"
  | Json.jbool b => cond b "true" "false"
  | Json.jnum lexeme => lexeme
  | Json.jstr s => s
  | Json.jarr elems => jsArrToString elems
  | Json.jobj _ => "[object Object]"

/-- Array toString: elements joined by commas, null rendered empty. -/
def jsArrToString : List Json → String
  | [] => ""
  | [Json.jnull] => ""
  | [j] => jsToString j
  | Json.jnull :: rest => "," ++ jsArrToString rest
  | j :: rest => jsToString j ++ "," ++ jsArrToString rest

end

/-- The token extracted from one parsed stream payload:
parsed.choices?.[0]?.delta?.content with optional chaining. -/
def deltaToken (j : Json) : Option Json :=
  ((jsonField j "choices").bind jsonIndex0).bind
    (fun d => (jsonField d "delta").bind (fun dd => jsonField dd "content"))

/-! ## The stream decoding loop of sendMessage

The source reads the response body chunk by chunk; each decoded chunk
is split on newlines, each line is filtered by the data prefix, its
payload extracted (slice(6) then trim) and parsed, and the token, if
truthy, is appended by identity lookup on the assistant message id:

findIndex on the live array followed by an if-guard on the found
message, so a missing id silently drops the append. -/

/-- Append text to the first message with the given id; if no message
has it (findIndex yields -1 and the index read yields undefined,
which the source guards), the list is unchanged. -/
def appendContentById : List Message → Nat → String → List Message
  | [], _, _ => []
  | m :: rest, aid, t =>
    if m.id = aid then { m with content := m.content ++ t } :: rest
    else m :: appendContentById rest aid t

/-- Replace the content of the first message with the given id; if no
message has it, the list is unchanged.  This is the write performed
by the catch block of sendMessage. -/
def setContentById : List Message → Nat → String → List Message
  | [], _, _ => []
  | m :: rest, aid, c =>
    if m.id = aid then { m with content := c } :: rest
    else m :: setContentById rest aid c

/-- The payload of a significant stream line: the line with its first
six characters removed (slice(6)), then trimmed. -/
def payloadOf (line : String) : String :=
  jsTrim (String.mk (dropChars 6 line.data))

/-- Effect of one successfully extracted payload on the message list:
parse it as JSON (a failure is swallowed by the inner try/catch and
changes nothing), extract choices?.[0]?.delta?.content, and append
the token to the assistant message when the token is truthy. -/
def applyPayload (msgs : List Message) (aid : Nat) (data : String) : List Message :=
  match parseJson data with
  | none => msgs
  | some j =>
    match deltaToken j with
    | none => msgs
    | some tok =>
      if jsTruthy tok then appendContentById msgs aid (jsToString tok)
      else msgs

/-- The inner for-loop of sendMessage over the lines of one decoded
chunk: a line not starting with the data prefix is skipped; a payload
equal to [DONE] breaks out of the loop, abandoning the remaining
lines of this chunk; any other payload is applied and the loop
continues. -/
def processLines (msgs : List Message) (aid : Nat) : List String → List Message
  | [] => msgs
  | line :: rest =>
    if jsStartsWith line "data: " then
      if payloadOf line = "[DONE]" then msgs
      else processLines (applyPayload msgs aid (payloadOf line)) aid rest
    else processLines msgs aid rest

/-- One iteration of the outer read loop: the decoded chunk is split
on newline and its lines are processed. -/
def processChunk (msgs : List Message) (aid : Nat) (chunk : String) : List Message :=
  processLines msgs aid (jsSplitNl chunk)

/-- The outer read loop over the decoded chunks delivered by the
transport, ending at end-of-stream. -/
def processChunks (msgs : List Message) (aid : Nat) : List String → List Message
  | [] => msgs
  | c :: cs => processChunks (processChunk msgs aid c) aid cs

/-! ## The sendMessage operation -/

/-- The fixed system preamble prepended to every request body. -/
def systemPreamble : String :=
  "Você é a MedIA, uma assistente médica virtual baseada no modelo Gemma. Sempre responda em português brasileiro. você lida com médicos registrados"

/-- The fixed user-facing fallback written by the catch block. -/
def errorFallback : String :=
  "Desculpe, ocorreu um erro. Tente novamente."

/-- The response body as observed through reader.read() and the
incremental text decoder: the decoded chunks in order, and whether
the transport fails (a rejected read) after delivering them instead
of signalling a clean end-of-stream. -/
structure StreamBody where
  chunks : List String
  readError : Bool
  deriving DecidableEq, Repr

/-- Outcome of the fetch call: a network error (the fetch promise
rejects), or a response with its ok flag and an optional readable
body. -/
inductive FetchResult where
  | netError
  | response (ok : Bool) (body : Option StreamBody)
  deriving DecidableEq, Repr

/-- Whether a fetch outcome makes this send take the catch path:
a network error, a non-ok status, an absent body, or a transport
failure while reading the stream. -/
def isFailure : FetchResult → Bool
  | FetchResult.netError => true
  | FetchResult.response ok body =>
    if ok then
      match body with
      | none => true
      | some sb => sb.readError
    else true

/-- The guard at the top of sendMessage: the call returns immediately
when the trimmed text is empty or a send is already in flight. -/
def sendGuard (st : ChatState) (text : String) : Bool :=
  jsTrim text == "" || st.isLoading

/-- createMessage of the source, with the generated id and the
creation time taken as parameters (the source draws the id from
Date.now and Math.random, and the timestamp from the clock). -/
def createMessage (id : Nat) (role : Role) (content : String) (timestamp : Nat) : Message :=
  { id := id, role := role, content := content, timestamp := timestamp }

/-- The synchronous prefix of an accepted send, before any network
I/O is awaited: push the user message carrying the text as passed,
push the empty assistant placeholder, set isLoading. -/
def sendPrelude (st : ChatState) (text : String) (uid aid ts : Nat) : ChatState :=
  { messages := st.messages ++ [createMessage uid Role.user text ts,
      createMessage aid Role.assistant "" ts],
    isLoading := true }

/-- The request body serialised by the fetch call: the fixed system
preamble, then every message of the live list (which at this point
already holds the new user message and the empty placeholder) with
truthy content, reduced to role and content, then the user text once
more. -/
def buildBody (msgs : List Message) (text : String) : List WireMessage :=
  { role := Role.system, content := systemPreamble } ::
    ((msgs.filter (fun m => m.content != "")).map
      (fun m => { role := m.role, content := m.content : WireMessage }) ++
      [{ role := Role.user, content := text }])

/-- A whole sendMessage call as a pure function of the initial state,
the input text, the two generated ids with their timestamp, and the
transport outcome.  Returns the final state and the request body
that was sent, none when the guard rejected the call.  The catch
block writes the fallback into the assistant slot by identity
lookup; the finally block clears isLoading on every path. -/
def sendMessage (st : ChatState) (text : String) (uid aid ts : Nat)
    (res : FetchResult) : ChatState × Option (List WireMessage) :=
  if sendGuard st text then (st, none)
  else
    let st1 := sendPrelude st text uid aid ts
    let body := buildBody st1.messages text
    let final :=
      match res with
      | FetchResult.netError => setContentById st1.messages aid errorFallback
      | FetchResult.response ok obody =>
        if ok then
          match obody with
          | none => setContentById st1.messages aid errorFallback
          | some sb =>
            let streamed := processChunks st1.messages aid sb.chunks
            if sb.readError then setContentById streamed aid errorFallback
            else streamed
        else setContentById st1.messages aid errorFallback
    ({ messages := final, isLoading := false }, some body)

/-- clearMessages of the source: the message array is replaced by an
empty one; the isLoading flag is not touched. -/
def clearMessages (st : ChatState) : ChatState :=
  { messages := [], isLoading := st.isLoading }

/-- A send during which clearMessages fires at a read suspension
point: the prelude runs, some chunks are processed, the list is
cleared, the remaining chunks are processed against the live (now
empty) list, the catch block fires when the read that follows
fails, and finally clears isLoading.  When the guard rejects the
call no send is in flight and the state is returned unchanged. -/
def sendWithMidStreamClear (st : ChatState) (text : String) (uid aid ts : Nat)
    (chunksBefore chunksAfter : List String) (readFails : Bool) : ChatState :=
  if sendGuard st text then st
  else
    let st1 := sendPrelude st text uid aid ts
    let streamed := processChunks st1.messages aid chunksBefore
    let cleared := (clearMessages { messages := streamed, isLoading := true }).messages
    let afterClear := processChunks cleared aid chunksAfter
    let final :=
      if readFails then setContentById afterClear aid errorFallback
      else afterClear
    { messages := final, isLoading := false }

/-- Content of the first message with the given id, the observation
used to state where streamed tokens and the fallback land. -/
def contentById (msgs : List Message) (aid : Nat) : Option String :=
  (msgs.find? (fun m => m.id == aid)).map (fun m => m.content)

/-! ## Helper lemmas

The stream decoder only ever rewrites the content field of an
existing message, so the sequence of message ids is invariant under
every step of the read loop; in particular decoding over an empty
list leaves it empty, and the assistant id stays present through
arbitrary streaming. -/

theorem appendContentById_map_id (msgs : List Message) (aid : Nat) (t : String) :
    (appendContentById msgs aid t).map (fun m => m.id) = msgs.map (fun m => m.id) := by
  induction msgs with
  | nil => rfl
  | cons m rest ih =>
    by_cases h : m.id = aid
    · simp [appendContentById, h]
    · simp [appendContentById, h, ih]

theorem setContentById_map_id (msgs : List Message) (aid : Nat) (c : String) :
    (setContentById msgs aid c).map (fun m => m.id) = msgs.map (fun m => m.id) := by
  induction msgs with
  | nil => rfl
  | cons m rest ih =>
    by_cases h : m.id = aid
    · simp [setContentById, h]
    · simp [setContentById, h, ih]

theorem applyPayload_map_id (msgs : List Message) (aid : Nat) (data : String) :
    (applyPayload msgs aid data).map (fun m => m.id) = msgs.map (fun m => m.id) := by
  cases hp : parseJson data with
  | none => simp [applyPayload, hp]
  | some j =>
    cases ht : deltaToken j with
    | none => simp [applyPayload, hp, ht]
    | some tok =>
      by_cases h : jsTruthy tok
      · simp [applyPayload, hp, ht, h, appendContentById_map_id]
      · simp [applyPayload, hp, ht, h]

theorem processLines_map_id (lines : List String) (msgs : List Message) (aid : Nat) :
    (processLines msgs aid lines).map (fun m => m.id) = msgs.map (fun m => m.id) := by
  induction lines generalizing msgs with
  | nil => rfl
  | cons line rest ih =>
    by_cases h1 : jsStartsWith line "data: "
    · by_cases h2 : payloadOf line = "[DONE]"
      · simp [processLines, h1, h2]
      · simp [processLines, h1, h2, ih, applyPayload_map_id]
    · simp [processLines, h1, ih]

theorem processChunks_map_id (cs : List String) (msgs : List Message) (aid : Nat) :
    (processChunks msgs aid cs).map (fun m => m.id) = msgs.map (fun m => m.id) := by
  induction cs generalizing msgs with
  | nil => rfl
  | cons c rest ih =>
    simp [processChunks, processChunk, ih, processLines_map_id]

theorem processChunks_nil (cs : List String) (aid : Nat) :
    processChunks [] aid cs = [] := by
  have h := processChunks_map_id cs [] aid
  simp only [List.map_nil] at h
  exact List.map_eq_nil_iff.mp h

theorem contentById_setContentById (msgs : List Message) (aid : Nat) (c : String)
    (h : aid ∈ msgs.map (fun m => m.id)) :
    contentById (setContentById msgs aid c) aid = some c := by
  induction msgs with
  | nil => simp at h
  | cons m rest ih =>
    by_cases hm : m.id = aid
    · subst hm
      simp [setContentById, contentById]
    · have hrest : aid ∈ rest.map (fun m => m.id) := by
        simp at h
        rcases h with h | h
        · exact absurd h.symm hm
        · simpa using h
      simp only [setContentById, if_neg hm, contentById]
      rw [List.find?_cons_of_neg]
      · exact ih hrest
      · simp [hm]

theorem text_ne_empty_of_guard (st : ChatState) (text : String)
    (hg : sendGuard st text = false) : text ≠ "" := by
  intro he
  subst he
  simp [sendGuard] at hg
  exact hg.1 rfl

/-! ## The claims -/

/-- C1, counterexample: on an idle empty session and the input hi,
the request body built by sendMessage is the system preamble
followed by the user text twice — once through the spread of the
live message list, which already holds the just-pushed user
message, and once through the explicitly appended final element —
so it is not the body with the text exactly once as the final
element that the claim describes. -/
theorem C1_counterexample :
    sendGuard ⟨[], false⟩ "hi" = false ∧
    (sendMessage ⟨[], false⟩ "hi" 0 1 7 (FetchResult.response true (some ⟨[], false⟩))).2 =
      some [{ role := Role.system, content := systemPreamble },
        { role := Role.user, content := "hi" },
        { role := Role.user, content := "hi" }] ∧
    (sendMessage ⟨[], false⟩ "hi" 0 1 7 (FetchResult.response true (some ⟨[], false⟩))).2 ≠
      some [{ role := Role.system, content := systemPreamble },
        { role := Role.user, content := "hi" }] := by
  refine ⟨by decide, by decide, by decide⟩

/-- C1, amended: for every idle session and input whose trim is
non-empty, the request body is exactly the fixed system preamble,
then the prior conversation filtered to non-empty content and
reduced to role/content pairs, then the new user text twice: once
because the just-appended user message is part of the live list the
body spreads (the empty assistant placeholder is filtered out), and
once as the explicitly appended final element. -/
theorem C1_request_body (st : ChatState) (text : String) (uid aid ts : Nat)
    (res : FetchResult) (hg : sendGuard st text = false) :
    (sendMessage st text uid aid ts res).2 =
      some ({ role := Role.system, content := systemPreamble } ::
        ((st.messages.filter (fun m => m.content != "")).map
            (fun m => { role := m.role, content := m.content : WireMessage }) ++
          [{ role := Role.user, content := text },
            { role := Role.user, content := text }])) := by
  have htext : text ≠ "" := text_ne_empty_of_guard st text hg
  have htextb : (text != "") = true := by simpa using htext
  simp [sendMessage, hg, sendPrelude, buildBody, createMessage,
    List.filter_append, List.filter_cons, htextb]

/-- C1 witness: the amended body shape at a concrete idle session. -/
theorem C1_request_body_witness :
    sendGuard ⟨[], false⟩ "hi" = false ∧
    (sendMessage ⟨[], false⟩ "hi" 0 1 7 FetchResult.netError).2 =
      some ({ role := Role.system, content := systemPreamble } ::
        (((⟨[], false⟩ : ChatState).messages.filter (fun m => m.content != "")).map
            (fun m => { role := m.role, content := m.content : WireMessage }) ++
          [{ role := Role.user, content := "hi" },
            { role := Role.user, content := "hi" }])) :=
  ⟨by decide, C1_request_body ⟨[], false⟩ "hi" 0 1 7 FetchResult.netError (by decide)⟩

/-- C2: during stream decoding, a line contributes only if it starts
with the data prefix; the payload of a significant line is the
remainder after slice(6) and trim; a [DONE] payload abandons the
remaining lines of the current decoded chunk only; and the outer
read loop continues with the chunks that follow regardless. -/
theorem C2_line_decoding (msgs : List Message) (aid : Nat)
    (l1 l2 l3 : String) (rest : List String) (c : String) (cs : List String)
    (h1 : jsStartsWith l1 "data: " = false)
    (h2 : jsStartsWith l2 "data: " = true) (h2d : payloadOf l2 = "[DONE]")
    (h3 : jsStartsWith l3 "data: " = true) (h3d : payloadOf l3 ≠ "[DONE]") :
    processLines msgs aid (l1 :: rest) = processLines msgs aid rest ∧
    processLines msgs aid (l2 :: rest) = msgs ∧
    processLines msgs aid (l3 :: rest) =
      processLines (applyPayload msgs aid (payloadOf l3)) aid rest ∧
    processChunks msgs aid (c :: cs) =
      processChunks (processLines msgs aid (jsSplitNl c)) aid cs := by
  refine ⟨?_, ?_, ?_, rfl⟩
  · simp [processLines, h1]
  · simp [processLines, h2, h2d]
  · simp [processLines, h3, h3d]

/-- C2 witness: the four decoding equations at concrete lines. -/
theorem C2_line_decoding_witness :
    jsStartsWith "x" "data: " = false ∧
    jsStartsWith "data: [DONE]" "data: " = true ∧
    payloadOf "data: [DONE]" = "[DONE]" ∧
    jsStartsWith "data: not-json" "data: " = true ∧
    payloadOf "data: not-json" ≠ "[DONE]" ∧
    (processLines [] 0 ["x"] = processLines [] 0 [] ∧
      processLines [] 0 ["data: [DONE]"] = [] ∧
      processLines [] 0 ["data: not-json"] =
        processLines (applyPayload [] 0 (payloadOf "data: not-json")) 0 [] ∧
      processChunks [] 0 ["a"] = processChunks (processLines [] 0 (jsSplitNl "a")) 0 []) :=
  ⟨by decide, by decide, by decide, by decide, by decide,
    C2_line_decoding [] 0 "x" "data: [DONE]" "data: not-json" [] "a" []
      (by decide) (by decide) (by decide) (by decide) (by decide)⟩

/-- C3: when a send fails — the fetch rejects, the status is not ok,
the body is absent, or a read rejects after partial streaming — the
assistant placeholder content is exactly the fallback string in the
final state, overwriting whatever had been streamed; and for every
outcome whatsoever, success included, isLoading is false afterward. -/
theorem C3_failure_fallback (st : ChatState) (text : String) (uid aid ts : Nat)
    (res res2 : FetchResult)
    (hg : sendGuard st text = false)
    (hfresh : ∀ m ∈ st.messages, m.id ≠ aid)
    (hfail : isFailure res = true) :
    contentById (sendMessage st text uid aid ts res).1.messages aid = some errorFallback ∧
    (sendMessage st text uid aid ts res2).1.isLoading = false := by
  have hmem : aid ∈ (sendPrelude st text uid aid ts).messages.map (fun m => m.id) := by
    simp [sendPrelude, createMessage]
  constructor
  · cases res with
    | netError =>
      simp only [sendMessage, hg, Bool.false_eq_true, if_false]
      exact contentById_setContentById _ aid _ hmem
    | response ok obody =>
      cases ok with
      | false =>
        simp only [sendMessage, hg, Bool.false_eq_true, if_false]
        exact contentById_setContentById _ aid _ hmem
      | true =>
        cases obody with
        | none =>
          simp only [sendMessage, hg, Bool.false_eq_true, if_false]
          exact contentById_setContentById _ aid _ hmem
        | some sb =>
          obtain ⟨chunks, rerr⟩ := sb
          cases rerr with
          | false => simp [isFailure] at hfail
          | true =>
            simp only [sendMessage, hg, Bool.false_eq_true, if_false]
            apply contentById_setContentById
            rw [processChunks_map_id]
            exact hmem
  · simp [sendMessage, hg]

/-- C3 witness: a network error on an idle empty session writes the
fallback, and a clean success also ends with isLoading false. -/
theorem C3_failure_fallback_witness :
    sendGuard ⟨[], false⟩ "hi" = false ∧
    isFailure FetchResult.netError = true ∧
    (contentById (sendMessage ⟨[], false⟩ "hi" 0 1 0 FetchResult.netError).1.messages 1 =
        some errorFallback ∧
      (sendMessage ⟨[], false⟩ "hi" 0 1 0
          (FetchResult.response true (some ⟨[], false⟩))).1.isLoading = false) :=
  ⟨by decide, by decide,
    C3_failure_fallback ⟨[], false⟩ "hi" 0 1 0 FetchResult.netError
      (FetchResult.response true (some ⟨[], false⟩)) (by decide) (by simp) (by decide)⟩

/-- C4, counterexample: called on an idle session with an input whose
trim is non-empty but which carries surrounding whitespace, the
user message appended by sendMessage holds the raw input text, not
its trim as the claim states. -/
theorem C4_counterexample :
    sendGuard ⟨[], false⟩ " hi " = false ∧
    (sendPrelude ⟨[], false⟩ " hi " 0 1 7).messages.map (fun m => (m.role, m.content)) ≠
      [(Role.user, "hi"), (Role.assistant, "")] ∧
    (sendPrelude ⟨[], false⟩ " hi " 0 1 7).messages.map (fun m => (m.role, m.content)) =
      [(Role.user, " hi "), (Role.assistant, "")] := by
  refine ⟨by decide, by decide, by decide⟩

/-- C4, amended: for every idle session and input whose trim is
non-empty, the synchronous prefix of sendMessage (everything before
the first await) appends exactly two messages — a user message
whose content is the input text as passed, untrimmed, then an
assistant message with empty content — and sets isLoading. -/
theorem C4_prelude_appends (st : ChatState) (text : String) (uid aid ts : Nat)
    (hg : sendGuard st text = false) :
    (sendPrelude st text uid aid ts).messages =
      st.messages ++ [createMessage uid Role.user text ts,
        createMessage aid Role.assistant "" ts] ∧
    (sendPrelude st text uid aid ts).messages.length = st.messages.length + 2 ∧
    (sendPrelude st text uid aid ts).isLoading = true := by
  refine ⟨rfl, ?_, rfl⟩
  simp [sendPrelude]

/-- C4 witness: the two appended messages at a concrete idle session. -/
theorem C4_prelude_appends_witness :
    sendGuard ⟨[], false⟩ " hi " = false ∧
    ((sendPrelude ⟨[], false⟩ " hi " 0 1 7).messages =
        (⟨[], false⟩ : ChatState).messages ++ [createMessage 0 Role.user " hi " 7,
          createMessage 1 Role.assistant "" 7] ∧
      (sendPrelude ⟨[], false⟩ " hi " 0 1 7).messages.length =
        (⟨[], false⟩ : ChatState).messages.length + 2 ∧
      (sendPrelude ⟨[], false⟩ " hi " 0 1 7).isLoading = true) :=
  ⟨by decide, C4_prelude_appends ⟨[], false⟩ " hi " 0 1 7 (by decide)⟩

/-- C5: an input trimming to empty, or any call while a send is in
flight, is a complete no-op: the state is returned unchanged (same
message sequence, same flag) and no request body is built. -/
theorem C5_rejected_send_noop (st : ChatState) (text : String) (uid aid ts : Nat)
    (res : FetchResult)
    (h : jsTrim text = "" ∨ st.isLoading = true) :
    sendMessage st text uid aid ts res = (st, none) := by
  have hg : sendGuard st text = true := by
    rcases h with h | h
    · simp [sendGuard, h]
    · simp [sendGuard, h]
  simp [sendMessage, hg]

/-- C5 witness: a whitespace-only input on an idle session. -/
theorem C5_rejected_send_noop_witness :
    (jsTrim "   " = "" ∨ (⟨[], false⟩ : ChatState).isLoading = true) ∧
    sendMessage ⟨[], false⟩ "   " 0 1 0 FetchResult.netError = (⟨[], false⟩, none) :=
  ⟨Or.inl (by decide),
    C5_rejected_send_noop ⟨[], false⟩ "   " 0 1 0 FetchResult.netError (Or.inl (by decide))⟩

/-- C6: on the three-line stream of the claim the two delta tokens
are appended in order to the assistant placeholder, found by
identity lookup on its id, and its content ends as the string with
the two tokens concatenated. -/
theorem C6_stream_example :
    (sendMessage ⟨[], false⟩ "Oi" 0 1 7 (FetchResult.response true (some
        ⟨["data: \x7b\"choices\":[\x7b\"delta\":\x7b\"content\":\"Ol\"\x7d\x7d]\x7d\n",
          "data: \x7b\"choices\":[\x7b\"delta\":\x7b\"content\":\"á\"\x7d\x7d]\x7d\n",
          "data: [DONE]\n"], false⟩))).1 =
      ⟨[⟨0, Role.user, "Oi", 7⟩, ⟨1, Role.assistant, "Olá", 7⟩], false⟩ ∧
    contentById (sendMessage ⟨[], false⟩ "Oi" 0 1 7 (FetchResult.response true (some
        ⟨["data: \x7b\"choices\":[\x7b\"delta\":\x7b\"content\":\"Ol\"\x7d\x7d]\x7d\n",
          "data: \x7b\"choices\":[\x7b\"delta\":\x7b\"content\":\"á\"\x7d\x7d]\x7d\n",
          "data: [DONE]\n"], false⟩))).1.messages 1 = some "Olá" := by
  refine ⟨by decide, by decide⟩

/-- C7: a significant line whose payload is not [DONE] and fails to
parse as JSON changes no message and leaves the loop processing the
following lines: the decoding step is the identity on the message
list there. -/
theorem C7_malformed_payload_ignored (msgs : List Message) (aid : Nat)
    (line : String) (rest : List String)
    (h1 : jsStartsWith line "data: " = true)
    (h2 : payloadOf line ≠ "[DONE]")
    (h3 : parseJson (payloadOf line) = none) :
    processLines msgs aid (line :: rest) = processLines msgs aid rest := by
  simp [processLines, h1, h2, applyPayload, h3]

/-- C7 witness: the line data colon not-json at a concrete state. -/
theorem C7_malformed_payload_ignored_witness :
    jsStartsWith "data: not-json" "data: " = true ∧
    payloadOf "data: not-json" ≠ "[DONE]" ∧
    parseJson (payloadOf "data: not-json") = none ∧
    processLines [⟨1, Role.assistant, "keep", 0⟩] 1 ["data: not-json"] =
      processLines [⟨1, Role.assistant, "keep", 0⟩] 1 [] :=
  ⟨by decide, by decide, by rfl,
    C7_malformed_payload_ignored [⟨1, Role.assistant, "keep", 0⟩] 1 "data: not-json" []
      (by decide) (by decide) (by rfl)⟩

/-- C8: clearMessages empties the message sequence of every session
state and leaves the awaiting-completion flag exactly as it was. -/
theorem C8_clearMessages_empties (st : ChatState) :
    (clearMessages st).messages = [] ∧ (clearMessages st).isLoading = st.isLoading :=
  ⟨rfl, rfl⟩

/-- C9: splitting is per decoded chunk — an event line delivered
split across two transport chunks yields one fragment that carries
the prefix but fails JSON parsing and one fragment without the
prefix, so its token is silently lost; the same bytes delivered in
a single chunk do append the token. -/
theorem C9_split_line_loses_token :
    (sendMessage ⟨[], false⟩ "Oi" 0 1 7 (FetchResult.response true (some
        ⟨["data: \x7b\"choi", "ces\":[\x7b\"delta\":\x7b\"content\":\"X\"\x7d\x7d]\x7d\n"],
          false⟩))).1 =
      ⟨[⟨0, Role.user, "Oi", 7⟩, ⟨1, Role.assistant, "", 7⟩], false⟩ ∧
    (sendMessage ⟨[], false⟩ "Oi" 0 1 7 (FetchResult.response true (some
        ⟨["data: \x7b\"choices\":[\x7b\"delta\":\x7b\"content\":\"X\"\x7d\x7d]\x7d\n"],
          false⟩))).1 =
      ⟨[⟨0, Role.user, "Oi", 7⟩, ⟨1, Role.assistant, "X", 7⟩], false⟩ := by
  refine ⟨by decide, by decide⟩

/-- C10: when clearMessages fires while a send is streaming, every
later token append and the error fallback write find no message
with the assistant id and are dropped by the guard, the sequence
stays empty, and the finally path still clears isLoading. -/
theorem C10_clear_during_send (st : ChatState) (text : String) (uid aid ts : Nat)
    (chunksBefore chunksAfter : List String) (readFails : Bool)
    (hg : sendGuard st text = false) :
    sendWithMidStreamClear st text uid aid ts chunksBefore chunksAfter readFails =
      ⟨[], false⟩ := by
  simp only [sendWithMidStreamClear, hg, Bool.false_eq_true, if_false, clearMessages]
  rw [processChunks_nil]
  cases readFails <;> simp [setContentById]

/-- C10 witness: a concrete send with tokens streamed before and
after the clear and a read failure at the end. -/
theorem C10_clear_during_send_witness :
    sendGuard ⟨[], false⟩ "hi" = false ∧
    sendWithMidStreamClear ⟨[], false⟩ "hi" 0 1 0
        ["data: \x7b\"choices\":[\x7b\"delta\":\x7b\"content\":\"Ol\"\x7d\x7d]\x7d\n"]
        ["data: \x7b\"choices\":[\x7b\"delta\":\x7b\"content\":\"á\"\x7d\x7d]\x7d\n"]
        true =
      ⟨[], false⟩ :=
  ⟨by decide,
    C10_clear_during_send ⟨[], false⟩ "hi" 0 1 0
      ["data: \x7b\"choices\":[\x7b\"delta\":\x7b\"content\":\"Ol\"\x7d\x7d]\x7d\n"]
      ["data: \x7b\"choices\":[\x7b\"delta\":\x7b\"content\":\"á\"\x7d\x7d]\x7d\n"]
      true (by decide)⟩

end MedAi
